import Mathlib

/-!
Verification development for the Salesforce Pub/Sub ingestion client.

The definitions below are a shallow embedding of the repository's source:

* `src/src/app/salesforce/pubsub_client.py` — `PubSubClient.subscribe_to_events`
  and `fetch_events_via_pubsub` (fetch-request construction, per-batch event
  decoding and yielding);
* `src/src/app/replay/cursor_store.py` — `CursorStore.get` / `CursorStore.set`
  over a durable topic → replay-id map;
* `src/TimerPoller/__init__.py` — `main`, one ingestion cycle: collect events
  per topic, flush the batch, upload, then advance cursors;
* `src/reference_subscriber.py` — the continuous-mode subscriber (first fetch
  request, per-run schema cache).

Byte strings (replay ids, Avro payloads) are modelled as `List Nat`; the
decoded Avro record is abstracted as a `String`; external effects (sqlite
write success, blob upload success, the remote response stream, the Avro
decoder) are parameters of the cycle function.
-/

namespace SalesforceClient

/-- A byte string (Python `bytes`): replay ids and raw payloads. -/
abbrev Bytes := List Nat

/-- `int.from_bytes(b, byteorder="big", signed=False)` as used by the client
when logging/ordering replay ids: big-endian interpretation of the bytes. -/
def bytesToNat : Bytes → Nat
  | [] => 0
  | b :: rest => b * 256 ^ rest.length + bytesToNat rest

/-- The replay presets of the Pub/Sub API (`pubsub_api_pb2.ReplayPreset`). -/
inductive ReplayPreset
  | EARLIEST
  | LATEST
  | CUSTOM
deriving DecidableEq, Repr

/-- The fields of `pb2.FetchRequest` that the client sets. A request built
without an explicit replay id has `replay_id = none`. -/
structure FetchRequest where
  topic_name : String
  replay_preset : ReplayPreset
  replay_id : Option Bytes
  num_requested : Nat
deriving DecidableEq, Repr

/-- Python truthiness of an optional byte string: `None` and `b""` are falsy,
any non-empty byte string is truthy (`if replay_id:`). -/
def pyTruthy : Option Bytes → Bool
  | none => false
  | some b => !b.isEmpty

/-- The initial fetch request built by `PubSubClient.subscribe_to_events`
(src/src/app/salesforce/pubsub_client.py, lines 125–141): a truthy
`replay_id` yields a CUSTOM request carrying that replay id, otherwise the
request uses the hardcoded EARLIEST preset with no explicit position. -/
def subscribeFetchRequest (topic_name : String) (replay_id : Option Bytes)
    (num_requested : Nat) : FetchRequest :=
  if pyTruthy replay_id then
    { topic_name := topic_name, replay_preset := .CUSTOM,
      replay_id := replay_id, num_requested := num_requested }
  else
    { topic_name := topic_name, replay_preset := .EARLIEST,
      replay_id := none, num_requested := num_requested }

/-- The first request yielded by `fetch_requests` in the continuous-mode
subscriber (src/reference_subscriber.py, lines 229–244): the preset is the
hardcoded `ReplayPreset.LATEST`, with no replay id. -/
def continuousFirstRequest (topic_name : String) (batch_size : Nat) : FetchRequest :=
  { topic_name := topic_name, replay_preset := .LATEST,
    replay_id := none, num_requested := batch_size }

/-- The configuration record built by `get_settings`
(src/src/app/config/settings.py). It carries credentials, topic names and
storage locations; it has no replay-preset field. -/
structure Settings where
  sf_client_id : String
  sf_username : String
  sf_login_url : String
  sf_audience : String
  sf_private_key_path : String
  sf_topic_names : List String
  azure_storage_connection_string : String
  azure_blob_container : String
  sqlite_db_dir : String
deriving DecidableEq, Repr

/-- Association-list lookup keyed by topic / schema id: first matching entry. -/
def lookupA {β : Type} : List (String × β) → String → Option β
  | [], _ => none
  | (k', v') :: rest, k => if k' = k then some v' else lookupA rest k

/-- Upsert into an association list, replacing the existing entry for the key
in place (Python-dict update order; also the effect of the sqlite
`ON CONFLICT(topic) DO UPDATE` upsert in `CursorStore.set`). -/
def upsert {β : Type} : List (String × β) → String → β → List (String × β)
  | [], k, v => [(k, v)]
  | (k', v') :: rest, k, v =>
      if k' = k then (k, v) :: rest else (k', v') :: upsert rest k v

/-- The durable cursor table of `src/src/app/replay/cursor_store.py`:
one row per topic, value the last saved replay id. -/
abbrev CursorMap := List (String × Bytes)

/-- `CursorStore.get`: the stored replay id for a topic, or `none` when no
row exists. An empty byte string is a possible stored value. -/
def CursorStore.get (store : CursorMap) (topic : String) : Option Bytes :=
  lookupA store topic

/-- `CursorStore.set`: upsert the replay id for a topic (last write wins). -/
def CursorStore.set (store : CursorMap) (topic : String) (replay_id : Bytes) :
    CursorMap :=
  upsert store topic replay_id

/-- The fetch request a `TimerPoller.main` cycle issues for a topic:
`replay_id = cursor_store.get(topic)` passed through
`fetch_events_via_pubsub` into `subscribe_to_events` with
`max_events = 100` (src/TimerPoller/__init__.py, lines 45–81). -/
def cycleFetchRequest (store : CursorMap) (topic : String) : FetchRequest :=
  subscribeFetchRequest topic (CursorStore.get store topic) 100

/-- One event envelope of a `FetchResponse` (`ev.replay_id` plus the nested
`ev.event` fields). An empty `payload` models the falsy
`not nested or not nested.payload` case that the client skips. -/
structure RawEnvelope where
  replay_id : Bytes
  schema_id : String
  event_id : String
  payload : Bytes
deriving DecidableEq, Repr

/-- One `FetchResponse` of the Subscribe stream: `latest_replay_id` and the
list of event envelopes; an empty list is a keepalive. -/
structure FetchResponse where
  latest_replay_id : Bytes
  events : List RawEnvelope
deriving DecidableEq, Repr

/-- The dict yielded by `subscribe_to_events` for one decoded event. -/
structure Event where
  topic : String
  replay_id : Bytes
  event_id : String
  schema_id : String
  payload : String
  latest_replay_id : Bytes
deriving DecidableEq, Repr

/-- Per-envelope handling inside `subscribe_to_events`: an envelope with a
falsy payload is skipped; otherwise the payload is decoded with the topic's
fetched schema (`schemaless_reader`, modelled by the `decode` parameter,
`none` on a decode exception, in which case the envelope is skipped); a
successful decode yields the event dict. -/
def decodeEnvelope (topic : String) (decode : Bytes → Option String)
    (latest : Bytes) (ev : RawEnvelope) : Option Event :=
  if ev.payload.isEmpty then none
  else
    match decode ev.payload with
    | none => none
    | some record =>
        some { topic := topic, replay_id := ev.replay_id,
               event_id := ev.event_id, schema_id := ev.schema_id,
               payload := record, latest_replay_id := latest }

/-- The events yielded by one `subscribe_to_events` call
(src/src/app/salesforce/pubsub_client.py, lines 160–230): the client reads
responses from the stream; a response without events ends the stream with
nothing yielded, a response with events is processed envelope by envelope and
then the loop breaks (batch mode), so only the first response matters. -/
def subscribe_to_events (topic : String) (decode : Bytes → Option String)
    (responses : List FetchResponse) : List Event :=
  match responses with
  | [] => []
  | r :: _ =>
      if r.events.isEmpty then []
      else r.events.filterMap (decodeEnvelope topic decode r.latest_replay_id)

/-- `fetch_events_via_pubsub`: collects the yielded events, stopping once
`max_events` have been accumulated. -/
def fetch_events_via_pubsub (decode : Bytes → Option String)
    (responses : String → List FetchResponse) (max_events : Nat)
    (topic : String) : List Event :=
  (subscribe_to_events topic decode (responses topic)).take max_events

/-- Tracking `latest_per_topic[topic] = event["replay_id"]` over the events
of one topic: after the loop the map holds the last event's replay id. -/
def trackLatest (m : CursorMap) (topic : String) (events : List Event) :
    CursorMap :=
  events.foldl (fun m e => upsert m topic e.replay_id) m

/-- One iteration of the per-topic loop of `TimerPoller.main`: a raised fetch
is caught (`except Exception: continue`) and leaves the accumulators
unchanged; a successful fetch appends the events to `collected` and records
each event's replay id as the topic's candidate checkpoint. -/
def collectStep (fetch : String → Except String (List Event))
    (acc : List Event × CursorMap) (topic : String) :
    List Event × CursorMap :=
  match fetch topic with
  | .error _ => acc
  | .ok events => (acc.1 ++ events, trackLatest acc.2 topic events)

/-- The whole per-topic loop of `TimerPoller.main` over the configured
topics, starting from an empty batch and an empty `latest_per_topic` map. -/
def collectPhase (fetch : String → Except String (List Event))
    (topics : List String) : List Event × CursorMap :=
  topics.foldl (collectStep fetch) ([], [])

/-- The candidate checkpoint `collectPhase` produces for a topic: the replay
id of the last event fetched for it, absent when the fetch raised or
returned no events. -/
def topicCheckpoint (fetch : String → Except String (List Event))
    (topic : String) : Option Bytes :=
  match fetch topic with
  | .error _ => none
  | .ok events => events.getLast?.map (fun e => e.replay_id)

/-- Applying the cursor-update loop of `TimerPoller.main`:
`for topic, replay_id in latest_per_topic.items(): cursor_store.set(...)`. -/
def applySets (store : CursorMap) (sets : CursorMap) : CursorMap :=
  sets.foldl (fun s kv => CursorStore.set s kv.1 kv.2) store

/-- The observable outcome of one `TimerPoller.main` cycle. -/
structure CycleResult where
  collected : List Event
  latest_per_topic : CursorMap
  flushCalled : Bool
  uploadCalled : Bool
  setCalls : CursorMap
  store : CursorMap
  raised : Bool
deriving DecidableEq, Repr

/-- One cycle of `TimerPoller.main` (src/TimerPoller/__init__.py):

1. per-topic collection with error isolation (`collectPhase`);
2. if the batch is non-empty, `write_events` flushes it (success modelled by
   `flushOk`; a raise propagates out of `main`, so no upload and no cursor
   sets happen);
3. on flush success and a non-local `ENVIRONMENT`, `upload_file` runs
   (success modelled by `uploadOk`; a raise propagates likewise, it is not
   caught);
4. finally the cursor-update loop writes every entry of `latest_per_topic`
   through `CursorStore.set` (it also runs when the batch was empty, over an
   empty map). -/
def runCycle (topics : List String)
    (fetch : String → Except String (List Event))
    (flushOk envLocal uploadOk : Bool) (store₀ : CursorMap) : CycleResult :=
  let c := collectPhase fetch topics
  if c.1.isEmpty then
    { collected := c.1, latest_per_topic := c.2, flushCalled := false,
      uploadCalled := false, setCalls := c.2,
      store := applySets store₀ c.2, raised := false }
  else if !flushOk then
    { collected := c.1, latest_per_topic := c.2, flushCalled := true,
      uploadCalled := false, setCalls := [], store := store₀, raised := true }
  else if !envLocal && !uploadOk then
    { collected := c.1, latest_per_topic := c.2, flushCalled := true,
      uploadCalled := true, setCalls := [], store := store₀, raised := true }
  else
    { collected := c.1, latest_per_topic := c.2, flushCalled := true,
      uploadCalled := !envLocal, setCalls := c.2,
      store := applySets store₀ c.2, raised := false }

/-- The per-topic fetch of a non-mock cycle: `fetch_events_via_pubsub` with
`max_events = 100`, returning normally (transport failures are covered by
the `Except` parameter of `runCycle`). -/
def pubsubFetch (decode : Bytes → Option String)
    (responses : String → List FetchResponse) :
    String → Except String (List Event) :=
  fun topic => .ok (fetch_events_via_pubsub decode responses 100 topic)

/-- A `TimerPoller.main` cycle whose per-topic fetch goes through the
Pub/Sub client model. -/
def runPubsubCycle (topics : List String) (decode : Bytes → Option String)
    (responses : String → List FetchResponse)
    (flushOk envLocal uploadOk : Bool) (store₀ : CursorMap) : CycleResult :=
  runCycle topics (pubsubFetch decode responses) flushOk envLocal uploadOk store₀

/-- The schema fetches a batch-mode run performs: each
`subscribe_to_events` call fetches its topic's schema exactly once
(`get_topic_info` then `fetch_avro_schema_via_rest`, lines 114–122 of
src/src/app/salesforce/pubsub_client.py), and `TimerPoller.main` subscribes
once per topic per cycle, so the run's schema-fetch sequence is one fetch per
topic, keyed by that topic's schema id. There is no cache across topics. -/
def batchRunSchemaFetches (topicSchema : String → String)
    (topics : List String) : List String :=
  topics.map topicSchema

/-- One cache resolution of the continuous-mode subscriber
(src/reference_subscriber.py, lines 274–282): a cached schema id is reused
without fetching; on a miss the external fetch runs (appended to the fetch
log); a successful fetch is cached, a failed fetch is not (the envelope is
skipped and a later envelope with the same id retries). -/
def resolveStep (fetchSchema : String → Option String)
    (acc : List (String × String) × List String) (schema_id : String) :
    List (String × String) × List String :=
  match lookupA acc.1 schema_id with
  | some _ => acc
  | none =>
      match fetchSchema schema_id with
      | some sch => ((schema_id, sch) :: acc.1, acc.2 ++ [schema_id])
      | none => (acc.1, acc.2 ++ [schema_id])

/-- The sequence of external schema fetches a continuous-mode run performs
while resolving the given sequence of envelope schema ids, starting from an
empty cache. -/
def schemaFetchLog (fetchSchema : String → Option String)
    (schema_ids : List String) : List String :=
  (schema_ids.foldl (resolveStep fetchSchema) ([], [])).2

/-- A concrete decoded event, for instantiating the cycle model. -/
def mkEvent (topic : String) (rid : Bytes) (eid : String) : Event :=
  { topic := topic, replay_id := rid, event_id := eid, schema_id := "S",
    payload := "record", latest_replay_id := [3] }

/-- A concrete raw envelope, for instantiating the stream model. -/
def mkEnvelope (rid : Bytes) (eid : String) (payload : Bytes) : RawEnvelope :=
  { replay_id := rid, schema_id := "S", event_id := eid, payload := payload }

/-- A concrete decoder: only the payload `[1]` decodes, every other payload
raises (models a malformed-payload decode exception). -/
def decodeSample : Bytes → Option String :=
  fun b => if b = [1] then some "record" else none

/-- A concrete response stream: one response with three envelopes at
positions 1, 2, 3, where the middle envelope's payload fails to decode
under `decodeSample`. -/
def responsesSample : String → List FetchResponse :=
  fun _ =>
    [{ latest_replay_id := [3],
       events := [mkEnvelope [1] "e1" [1], mkEnvelope [2] "e2" [99],
                  mkEnvelope [3] "e3" [1]] }]

end SalesforceClient

namespace SalesforceClient

theorem lookupA_upsert_self {β : Type} (m : List (String × β)) (k : String) (v : β) :
    lookupA (upsert m k v) k = some v := by
  induction m with
  | nil => simp [upsert, lookupA]
  | cons hd tl ih =>
      obtain ⟨k₀, v₀⟩ := hd
      by_cases h : k₀ = k
      · subst h; simp [upsert, lookupA]
      · simp [upsert, lookupA, h, ih]

theorem lookupA_upsert_ne {β : Type} (m : List (String × β)) (k k' : String)
    (v : β) (h : k' ≠ k) : lookupA (upsert m k v) k' = lookupA m k' := by
  have hk : ¬ k = k' := fun hh => h hh.symm
  induction m with
  | nil => simp [upsert, lookupA, hk]
  | cons hd tl ih =>
      obtain ⟨k₀, v₀⟩ := hd
      by_cases h0 : k₀ = k
      · subst h0
        have hk0 : ¬ k₀ = k' := hk
        simp [upsert, lookupA, hk0]
      · by_cases h1 : k₀ = k'
        · subst h1; simp [upsert, lookupA, h0]
        · simp [upsert, lookupA, h0, h1, ih]

theorem lookupA_eq_none_iff {β : Type} (m : List (String × β)) (k : String) :
    lookupA m k = none ↔ k ∉ m.map Prod.fst := by
  induction m with
  | nil => simp [lookupA]
  | cons hd tl ih =>
      obtain ⟨k₀, v₀⟩ := hd
      by_cases h : k₀ = k
      · subst h; simp [lookupA]
      · rw [List.map_cons, List.mem_cons]
        simp only [lookupA, if_neg h]
        rw [ih]
        constructor
        · rintro hn (h1 | h1)
          · exact h h1.symm
          · exact hn h1
        · intro hn h1
          exact hn (Or.inr h1)

theorem keys_upsert {β : Type} (m : List (String × β)) (k : String) (v : β) :
    (upsert m k v).map Prod.fst =
      if k ∈ m.map Prod.fst then m.map Prod.fst
      else m.map Prod.fst ++ [k] := by
  induction m with
  | nil => simp [upsert]
  | cons hd tl ih =>
      obtain ⟨k₀, v₀⟩ := hd
      by_cases h : k₀ = k
      · subst h; simp [upsert]
      · have hk : ¬ k = k₀ := fun hh => h hh.symm
        by_cases hm : k ∈ tl.map Prod.fst
        · simp [upsert, h, ih, hm, hk]
        · simp [upsert, h, ih, hm, hk]

theorem nodup_keys_upsert {β : Type} (m : List (String × β)) (k : String)
    (v : β) (h : (m.map Prod.fst).Nodup) :
    ((upsert m k v).map Prod.fst).Nodup := by
  rw [keys_upsert]
  by_cases hm : k ∈ m.map Prod.fst
  · simpa [hm] using h
  · simp [hm, List.nodup_append, h]

theorem lookupA_applySets_none (sets : CursorMap) (k : String) :
    ∀ s : CursorMap, lookupA sets k = none →
      lookupA (applySets s sets) k = lookupA s k := by
  induction sets with
  | nil => intro s _; rfl
  | cons hd tl ih =>
      intro s h
      obtain ⟨k₀, v₀⟩ := hd
      by_cases h0 : k₀ = k
      · subst h0; simp [lookupA] at h
      · simp only [lookupA, h0, if_neg h0] at h
        show lookupA (applySets (upsert s k₀ v₀) tl) k = lookupA s k
        rw [ih (upsert s k₀ v₀) h, lookupA_upsert_ne _ _ _ _ (fun hh => h0 hh.symm)]

theorem lookupA_applySets_some (sets : CursorMap) (k : String) (v : Bytes) :
    ∀ s : CursorMap, (sets.map Prod.fst).Nodup → lookupA sets k = some v →
      lookupA (applySets s sets) k = some v := by
  induction sets with
  | nil => intro s _ h; simp [lookupA] at h
  | cons hd tl ih =>
      intro s hnd h
      obtain ⟨k₀, v₀⟩ := hd
      simp only [List.map_cons, List.nodup_cons] at hnd
      by_cases h0 : k₀ = k
      · subst h0
        simp only [lookupA, if_pos rfl] at h
        obtain rfl : v₀ = v := by injection h
        show lookupA (applySets (upsert s k₀ v₀) tl) k₀ = some v₀
        have htl : lookupA tl k₀ = none := (lookupA_eq_none_iff tl k₀).2 hnd.1
        rw [lookupA_applySets_none tl k₀ _ htl, lookupA_upsert_self]
      · simp only [lookupA, if_neg h0] at h
        show lookupA (applySets (upsert s k₀ v₀) tl) k = some v
        exact ih (upsert s k₀ v₀) hnd.2 h

theorem getLast?_cons_ne_none {α : Type} (x : α) (l : List α) :
    (x :: l).getLast? ≠ none := by
  induction l generalizing x with
  | nil => simp
  | cons y l ih => rw [List.getLast?_cons_cons]; exact ih y

theorem topicCheckpoint_ok (fetch : String → Except String (List Event))
    (t : String) (events : List Event) (hf : fetch t = .ok events) :
    topicCheckpoint fetch t = events.getLast?.map (fun e => e.replay_id) := by
  unfold topicCheckpoint
  rw [hf]

theorem trackLatest_cons (m : CursorMap) (topic : String) (e : Event)
    (rest : List Event) :
    trackLatest m topic (e :: rest) =
      trackLatest (upsert m topic e.replay_id) topic rest := by
  rfl

theorem lookupA_trackLatest_ne (topic k : String) (h : k ≠ topic)
    (events : List Event) : ∀ m : CursorMap,
      lookupA (trackLatest m topic events) k = lookupA m k := by
  induction events with
  | nil => intro m; rfl
  | cons e rest ih =>
      intro m
      rw [trackLatest_cons, ih (upsert m topic e.replay_id),
        lookupA_upsert_ne _ _ _ _ h]

theorem lookupA_trackLatest_self (topic : String) (events : List Event) :
    ∀ m : CursorMap,
      lookupA (trackLatest m topic events) topic =
        (match events.getLast? with
         | some e => some e.replay_id
         | none => lookupA m topic) := by
  induction events with
  | nil => intro m; rfl
  | cons e rest ih =>
      intro m
      rw [trackLatest_cons, ih (upsert m topic e.replay_id)]
      cases rest with
      | nil => simp [lookupA_upsert_self]
      | cons e' rest' =>
          cases hg : (e' :: rest').getLast? with
          | none => exact absurd hg (getLast?_cons_ne_none e' rest')
          | some x => simp [List.getLast?_cons_cons, hg]

theorem nodup_keys_trackLatest (topic : String) (events : List Event) :
    ∀ m : CursorMap, (m.map Prod.fst).Nodup →
      ((trackLatest m topic events).map Prod.fst).Nodup := by
  induction events with
  | nil => intro m h; exact h
  | cons e rest ih =>
      intro m h
      exact ih (upsert m topic e.replay_id) (nodup_keys_upsert m topic _ h)

theorem collectFold_collected_mono (fetch : String → Except String (List Event))
    (e : Event) (topics : List String) :
    ∀ acc : List Event × CursorMap, e ∈ acc.1 →
      e ∈ (topics.foldl (collectStep fetch) acc).1 := by
  induction topics with
  | nil => intro acc h; exact h
  | cons t rest ih =>
      intro acc h
      refine ih (collectStep fetch acc t) ?_
      unfold collectStep
      cases hf : fetch t with
      | error _ => exact h
      | ok events => exact List.mem_append_left _ h

theorem collectFold_collected_of_mem (fetch : String → Except String (List Event))
    (b : String) (events : List Event) (e : Event) (topics : List String)
    (hb : b ∈ topics) (hf : fetch b = .ok events) (he : e ∈ events) :
    ∀ acc : List Event × CursorMap,
      e ∈ (topics.foldl (collectStep fetch) acc).1 := by
  induction topics with
  | nil => cases hb
  | cons t rest ih =>
      intro acc
      by_cases hr : b ∈ rest
      · exact ih hr (collectStep fetch acc t)
      · have hbt : b = t := by
          rcases List.mem_cons.1 hb with h | h
          · exact h
          · exact absurd h hr
        subst hbt
        refine collectFold_collected_mono fetch e rest (collectStep fetch acc b) ?_
        unfold collectStep
        rw [hf]
        exact List.mem_append_right _ he

theorem collectFold_latest_of_none (fetch : String → Except String (List Event))
    (t : String) (h : topicCheckpoint fetch t = none) (topics : List String) :
    ∀ acc : List Event × CursorMap,
      lookupA (topics.foldl (collectStep fetch) acc).2 t = lookupA acc.2 t := by
  induction topics with
  | nil => intro acc; rfl
  | cons t' rest ih =>
      intro acc
      rw [List.foldl_cons, ih (collectStep fetch acc t')]
      unfold collectStep
      cases hf : fetch t' with
      | error _ => rfl
      | ok events =>
          by_cases ht : t = t'
          · subst ht
            rw [topicCheckpoint_ok fetch t events hf] at h
            have hl : events.getLast? = none := by
              cases hg : events.getLast? with
              | none => rfl
              | some e => rw [hg] at h; simp at h
            show lookupA (trackLatest acc.2 t events) t = lookupA acc.2 t
            rw [lookupA_trackLatest_self, hl]
          · exact lookupA_trackLatest_ne t' t ht events acc.2

theorem collectFold_latest_not_mem (fetch : String → Except String (List Event))
    (t : String) (topics : List String) (h : t ∉ topics) :
    ∀ acc : List Event × CursorMap,
      lookupA (topics.foldl (collectStep fetch) acc).2 t = lookupA acc.2 t := by
  induction topics with
  | nil => intro acc; rfl
  | cons t' rest ih =>
      intro acc
      have ht : t ≠ t' := fun hh => h (hh ▸ List.mem_cons_self t' rest)
      have hr : t ∉ rest := fun hh => h (List.mem_cons_of_mem t' hh)
      rw [List.foldl_cons, ih hr (collectStep fetch acc t')]
      unfold collectStep
      cases hf : fetch t' with
      | error _ => rfl
      | ok events => exact lookupA_trackLatest_ne t' t ht events acc.2

theorem collectFold_latest_of_mem (fetch : String → Except String (List Event))
    (t : String) (r : Bytes) (topics : List String) (hm : t ∈ topics)
    (h : topicCheckpoint fetch t = some r) :
    ∀ acc : List Event × CursorMap,
      lookupA (topics.foldl (collectStep fetch) acc).2 t = some r := by
  induction topics with
  | nil => cases hm
  | cons t' rest ih =>
      intro acc
      by_cases hr : t ∈ rest
      · exact ih hr (collectStep fetch acc t')
      · have ht : t = t' := by
          rcases List.mem_cons.1 hm with hh | hh
          · exact hh
          · exact absurd hh hr
        subst ht
        rw [List.foldl_cons, collectFold_latest_not_mem fetch t rest hr]
        unfold collectStep
        cases hf : fetch t with
        | error err =>
            unfold topicCheckpoint at h
            rw [hf] at h
            simp at h
        | ok events =>
            rw [topicCheckpoint_ok fetch t events hf] at h
            show lookupA (trackLatest acc.2 t events) t = some r
            rw [lookupA_trackLatest_self]
            cases hg : events.getLast? with
            | none => rw [hg] at h; simp at h
            | some e => rw [hg] at h; simpa using h

theorem collect_latest_some (fetch : String → Except String (List Event))
    (topics : List String) (t : String) (r : Bytes)
    (h : lookupA (collectPhase fetch topics).2 t = some r) :
    t ∈ topics ∧ topicCheckpoint fetch t = some r := by
  by_cases hm : t ∈ topics
  · refine ⟨hm, ?_⟩
    cases hc : topicCheckpoint fetch t with
    | none =>
        rw [collectPhase, collectFold_latest_of_none fetch t hc topics ([], [])] at h
        simp [lookupA] at h
    | some r' =>
        rw [collectPhase, collectFold_latest_of_mem fetch t r' topics hm hc ([], [])] at h
        exact h
  · rw [collectPhase, collectFold_latest_not_mem fetch t topics hm ([], [])] at h
    simp [lookupA] at h

theorem nodup_keys_collect (fetch : String → Except String (List Event))
    (topics : List String) :
    (((collectPhase fetch topics).2).map Prod.fst).Nodup := by
  have main : ∀ (ts : List String) (acc : List Event × CursorMap),
      ((acc.2).map Prod.fst).Nodup →
      (((ts.foldl (collectStep fetch) acc).2).map Prod.fst).Nodup := by
    intro ts
    induction ts with
    | nil => intro acc h; exact h
    | cons t rest ih =>
        intro acc h
        refine ih (collectStep fetch acc t) ?_
        unfold collectStep
        cases hf : fetch t with
        | error _ => exact h
        | ok events => exact nodup_keys_trackLatest t events acc.2 h
  exact main topics ([], []) (by simp)

/-- C10: an empty replay id is treated as absent by
`PubSubClient.subscribe_to_events`: the CUSTOM request is issued exactly when
the replay id is non-empty bytes; for `None` or `b""` the request uses the
EARLIEST preset and carries no explicit position. -/
theorem empty_replay_id_treated_as_absent (t : String) (rid : Option Bytes) (n : Nat) :
    ((subscribeFetchRequest t rid n).replay_preset = .CUSTOM →
      ∃ p, rid = some p ∧ p ≠ []) ∧
    ((rid = none ∨ rid = some []) →
      subscribeFetchRequest t rid n =
        { topic_name := t, replay_preset := .EARLIEST,
          replay_id := none, num_requested := n }) ∧
    (∀ p, rid = some p → p ≠ [] →
      subscribeFetchRequest t rid n =
        { topic_name := t, replay_preset := .CUSTOM,
          replay_id := some p, num_requested := n }) := by
  refine ⟨?_, ?_, ?_⟩
  · intro h
    match rid with
    | none => simp [subscribeFetchRequest, pyTruthy] at h
    | some p =>
      refine ⟨p, rfl, ?_⟩
      intro hp
      subst hp
      simp [subscribeFetchRequest, pyTruthy] at h
  · rintro (h | h) <;> subst h <;> simp [subscribeFetchRequest, pyTruthy]
  · intro p hp hne
    subst hp
    have : pyTruthy (some p) = true := by
      simp [pyTruthy, List.isEmpty_iff]; exact hne
    simp [subscribeFetchRequest, this]

/-- C10 witness: at the concrete input `replay_id = some b""` the request is
EARLIEST with no position. -/
theorem empty_replay_id_treated_as_absent_witness :
    subscribeFetchRequest "/event/Delete_Logs__e" (some []) 100 =
      { topic_name := "/event/Delete_Logs__e", replay_preset := .EARLIEST,
        replay_id := none, num_requested := 100 } :=
  (empty_replay_id_treated_as_absent "/event/Delete_Logs__e" (some []) 100).2.1
    (Or.inr rfl)

/-- C3 (amended): a non-empty stored checkpoint `P` for a topic makes the
cycle's fetch request CUSTOM with start position exactly `P`. -/
theorem resume_uses_custom_with_checkpoint (store : CursorMap) (t : String)
    (p : Bytes) (h : CursorStore.get store t = some p) (hne : p ≠ []) :
    cycleFetchRequest store t =
      { topic_name := t, replay_preset := .CUSTOM,
        replay_id := some p, num_requested := 100 } := by
  unfold cycleFetchRequest
  rw [h]
  exact (empty_replay_id_treated_as_absent t (some p) 100).2.2 p rfl hne

/-- C3 witness: a store holding the non-empty checkpoint `[4, 2]` for topic
`"T"` resumes CUSTOM from exactly that position. -/
theorem resume_uses_custom_with_checkpoint_witness :
    CursorStore.get [("T", ([4, 2] : Bytes))] "T" = some [4, 2] ∧
    cycleFetchRequest [("T", [4, 2])] "T" =
      { topic_name := "T", replay_preset := .CUSTOM,
        replay_id := some [4, 2], num_requested := 100 } :=
  ⟨by decide, resume_uses_custom_with_checkpoint [("T", [4, 2])] "T" [4, 2]
    (by decide) (by decide)⟩

/-- C3 counterexample: the Cursor Store can hold the empty byte string as a
topic's checkpoint, and then the cycle's request is EARLIEST, not CUSTOM —
the claim as stated (any held checkpoint is resumed via CUSTOM) is false. -/
theorem resume_empty_checkpoint_cex :
    CursorStore.get [("T", ([] : Bytes))] "T" = some [] ∧
    (cycleFetchRequest [("T", [])] "T").replay_preset = .EARLIEST ∧
    ReplayPreset.EARLIEST ≠ ReplayPreset.CUSTOM := by
  decide

/-- C7 counterexample: with no prior checkpoint, batch mode requests EARLIEST
while continuous mode's first request is LATEST — the preset is a
mode-specific hardcoded constant, not one configured value shared by both
modes. -/
theorem first_run_preset_mode_specific_cex :
    (subscribeFetchRequest "/event/Foo__e" none 100).replay_preset = .EARLIEST ∧
    (continuousFirstRequest "/event/Foo__e" 10).replay_preset = .LATEST ∧
    ReplayPreset.EARLIEST ≠ ReplayPreset.LATEST := by
  decide

/-- C7 (amended): for a topic with no prior checkpoint the replay preset is a
hardcoded constant per consumption mode — EARLIEST in batch mode, LATEST in
continuous mode — independent of the `Settings` configuration, which carries
no preset field. -/
theorem first_run_presets_hardcoded (_s : Settings) (t : String)
    (rid : Option Bytes) (n b : Nat) (h : pyTruthy rid = false) :
    (subscribeFetchRequest t rid n).replay_preset = .EARLIEST ∧
    (continuousFirstRequest t b).replay_preset = .LATEST := by
  constructor
  · simp [subscribeFetchRequest, h]
  · rfl

/-- C7 amended-claim witness: concrete settings, topic and absent checkpoint. -/
theorem first_run_presets_hardcoded_witness :
    pyTruthy none = false ∧
    (subscribeFetchRequest "/event/Foo__e" none 100).replay_preset = .EARLIEST ∧
    (continuousFirstRequest "/event/Foo__e" 10).replay_preset = .LATEST :=
  ⟨rfl, first_run_presets_hardcoded
    { sf_client_id := "", sf_username := "", sf_login_url := "",
      sf_audience := "", sf_private_key_path := "", sf_topic_names := [],
      azure_storage_connection_string := "", azure_blob_container := "",
      sqlite_db_dir := "" }
    "/event/Foo__e" none 100 10 rfl⟩

theorem getLast?_some_mem {α : Type} {l : List α} {a : α}
    (h : l.getLast? = some a) : a ∈ l := by
  induction l with
  | nil => simp at h
  | cons x rest ih =>
      cases rest with
      | nil =>
          simp only [List.getLast?_singleton, Option.some_inj] at h
          simp [h]
      | cons y rest' =>
          rw [List.getLast?_cons_cons] at h
          exact List.mem_cons_of_mem x (ih h)

theorem runCycle_emptyBatch (topics : List String)
    (fetch : String → Except String (List Event))
    (flushOk envLocal uploadOk : Bool) (store₀ : CursorMap)
    (hne : (collectPhase fetch topics).1.isEmpty = true) :
    runCycle topics fetch flushOk envLocal uploadOk store₀ =
      { collected := (collectPhase fetch topics).1,
        latest_per_topic := (collectPhase fetch topics).2,
        flushCalled := false, uploadCalled := false,
        setCalls := (collectPhase fetch topics).2,
        store := applySets store₀ (collectPhase fetch topics).2,
        raised := false } := by
  unfold runCycle
  simp [hne]

theorem runCycle_flushFail (topics : List String)
    (fetch : String → Except String (List Event))
    (envLocal uploadOk : Bool) (store₀ : CursorMap)
    (hne : (collectPhase fetch topics).1.isEmpty = false) :
    runCycle topics fetch false envLocal uploadOk store₀ =
      { collected := (collectPhase fetch topics).1,
        latest_per_topic := (collectPhase fetch topics).2,
        flushCalled := true, uploadCalled := false,
        setCalls := [], store := store₀, raised := true } := by
  unfold runCycle
  simp [hne]

theorem runCycle_uploadFail (topics : List String)
    (fetch : String → Except String (List Event)) (store₀ : CursorMap)
    (hne : (collectPhase fetch topics).1.isEmpty = false) :
    runCycle topics fetch true false false store₀ =
      { collected := (collectPhase fetch topics).1,
        latest_per_topic := (collectPhase fetch topics).2,
        flushCalled := true, uploadCalled := true,
        setCalls := [], store := store₀, raised := true } := by
  unfold runCycle
  simp [hne]

theorem runCycle_success (topics : List String)
    (fetch : String → Except String (List Event))
    (envLocal uploadOk : Bool) (store₀ : CursorMap)
    (hne : (collectPhase fetch topics).1.isEmpty = false)
    (hok : envLocal = true ∨ uploadOk = true) :
    runCycle topics fetch true envLocal uploadOk store₀ =
      { collected := (collectPhase fetch topics).1,
        latest_per_topic := (collectPhase fetch topics).2,
        flushCalled := true, uploadCalled := !envLocal,
        setCalls := (collectPhase fetch topics).2,
        store := applySets store₀ (collectPhase fetch topics).2,
        raised := false } := by
  have hcond : (!envLocal && !uploadOk) = false := by
    rcases hok with h | h <;> subst h <;> simp
  unfold runCycle
  simp [hne, hcond]

/-- C2: for every cycle whose batch is non-empty, if the `write_events` flush
raises, the exception propagates out of `main` before the cursor-update loop:
the flush was attempted, no `CursorStore.set` occurs for any topic, and the
stored checkpoints are exactly what they were before the cycle. -/
theorem flush_failure_blocks_all_sets (topics : List String)
    (fetch : String → Except String (List Event)) (envLocal uploadOk : Bool)
    (store₀ : CursorMap) (hne : (collectPhase fetch topics).1 ≠ []) :
    (runCycle topics fetch false envLocal uploadOk store₀).flushCalled = true ∧
    (runCycle topics fetch false envLocal uploadOk store₀).setCalls = [] ∧
    (runCycle topics fetch false envLocal uploadOk store₀).store = store₀ ∧
    (runCycle topics fetch false envLocal uploadOk store₀).raised = true := by
  have hemp : (collectPhase fetch topics).1.isEmpty = false := by
    cases hc : (collectPhase fetch topics).1 with
    | nil => exact absurd hc hne
    | cons a l => rfl
  rw [runCycle_flushFail topics fetch envLocal uploadOk store₀ hemp]
  exact ⟨rfl, rfl, rfl, rfl⟩

/-- C2 witness: a cycle with one fetched event and a failing flush leaves the
store `[("T", [1])]` untouched and performs no set. -/
theorem flush_failure_blocks_all_sets_witness :
    (collectPhase (fun _ => .ok [mkEvent "T" [2] "e1"]) ["T"]).1 ≠ [] ∧
    (runCycle ["T"] (fun _ => .ok [mkEvent "T" [2] "e1"]) false true true
      [("T", [1])]).setCalls = [] ∧
    (runCycle ["T"] (fun _ => .ok [mkEvent "T" [2] "e1"]) false true true
      [("T", [1])]).store = [("T", [1])] :=
  ⟨by decide,
   (flush_failure_blocks_all_sets ["T"] (fun _ => .ok [mkEvent "T" [2] "e1"])
      true true [("T", [1])] (by decide)).2.1,
   (flush_failure_blocks_all_sets ["T"] (fun _ => .ok [mkEvent "T" [2] "e1"])
      true true [("T", [1])] (by decide)).2.2.1⟩

/-- C4: a fetch error for topic `a` is caught by the per-topic
`except Exception: continue` and aborts only that topic: another topic `b`
whose fetch succeeded still has all of its events in the batch, the flush
still runs, `b`'s checkpoint is set to its last event's replay id, while no
set occurs for `a` and `a`'s stored checkpoint is unchanged. -/
theorem transport_error_isolated (topics : List String)
    (fetch : String → Except String (List Event)) (envLocal uploadOk : Bool)
    (store₀ : CursorMap) (a b err : String) (events : List Event) (e : Event)
    (_ha : a ∈ topics) (hfa : fetch a = .error err)
    (hb : b ∈ topics) (hfb : fetch b = .ok events)
    (hlast : events.getLast? = some e)
    (hok : envLocal = true ∨ uploadOk = true) :
    (∀ x ∈ events,
      x ∈ (runCycle topics fetch true envLocal uploadOk store₀).collected) ∧
    (runCycle topics fetch true envLocal uploadOk store₀).flushCalled = true ∧
    lookupA (runCycle topics fetch true envLocal uploadOk store₀).setCalls b =
      some e.replay_id ∧
    CursorStore.get (runCycle topics fetch true envLocal uploadOk store₀).store b =
      some e.replay_id ∧
    lookupA (runCycle topics fetch true envLocal uploadOk store₀).setCalls a =
      none ∧
    CursorStore.get (runCycle topics fetch true envLocal uploadOk store₀).store a =
      CursorStore.get store₀ a := by
  have hmem : ∀ x ∈ events, x ∈ (collectPhase fetch topics).1 := by
    intro x hx
    exact collectFold_collected_of_mem fetch b events x topics hb hfb hx ([], [])
  have hne : (collectPhase fetch topics).1.isEmpty = false := by
    have he : e ∈ (collectPhase fetch topics).1 :=
      hmem e (getLast?_some_mem hlast)
    cases hc : (collectPhase fetch topics).1 with
    | nil => rw [hc] at he; cases he
    | cons _ _ => rfl
  have hcpb : topicCheckpoint fetch b = some e.replay_id := by
    rw [topicCheckpoint_ok fetch b events hfb, hlast]
    rfl
  have hcpa : topicCheckpoint fetch a = none := by
    unfold topicCheckpoint
    rw [hfa]
  have hlb : lookupA (collectPhase fetch topics).2 b = some e.replay_id := by
    rw [collectPhase]
    exact collectFold_latest_of_mem fetch b e.replay_id topics hb hcpb ([], [])
  have hla : lookupA (collectPhase fetch topics).2 a = none := by
    rw [collectPhase, collectFold_latest_of_none fetch a hcpa topics ([], [])]
    rfl
  rw [runCycle_success topics fetch envLocal uploadOk store₀ hne hok]
  refine ⟨hmem, rfl, hlb, ?_, hla, ?_⟩
  · exact lookupA_applySets_some _ b e.replay_id store₀
      (nodup_keys_collect fetch topics) hlb
  · exact lookupA_applySets_none _ a store₀ hla

/-- C4 witness: topic "A" raises a transport error, topic "B" returns one
event; "B" is persisted and checkpointed in the same cycle, "A"'s prior
checkpoint `[1]` survives. -/
theorem transport_error_isolated_witness :
    (fun t => if t = "A" then Except.error "transport"
              else Except.ok [mkEvent "B" [9] "b1"]) "A" =
        Except.error "transport" ∧
    (∀ x ∈ [mkEvent "B" [9] "b1"],
      x ∈ (runCycle ["A", "B"]
            (fun t => if t = "A" then Except.error "transport"
                      else Except.ok [mkEvent "B" [9] "b1"])
            true true true [("A", [1])]).collected) ∧
    lookupA (runCycle ["A", "B"]
        (fun t => if t = "A" then Except.error "transport"
                  else Except.ok [mkEvent "B" [9] "b1"])
        true true true [("A", [1])]).setCalls "B" = some [9] ∧
    CursorStore.get (runCycle ["A", "B"]
        (fun t => if t = "A" then Except.error "transport"
                  else Except.ok [mkEvent "B" [9] "b1"])
        true true true [("A", [1])]).store "A" = some [1] := by
  have h := transport_error_isolated ["A", "B"]
    (fun t => if t = "A" then Except.error "transport"
              else Except.ok [mkEvent "B" [9] "b1"])
    true true [("A", [1])] "A" "B" "transport" [mkEvent "B" [9] "b1"]
    (mkEvent "B" [9] "b1") (by decide) (by simp) (by decide) (by simp)
    rfl (Or.inl rfl)
  exact ⟨by simp, h.1, h.2.2.1, by
    have := h.2.2.2.2.2
    rw [this]
    rfl⟩

/-- C5 counterexample: the flush succeeds (`write_events` returns), the
environment is non-local and `upload_file` raises; because the upload is not
wrapped in any try/except, the cycle aborts with a candidate checkpoint
pending and performs no `CursorStore.set` — the claim that upload failure
does not prevent the set calls is false. -/
theorem upload_failure_blocks_sets_cex :
    (runCycle ["T"] (fun _ => .ok [mkEvent "T" [7] "e1"]) true false false
      []).flushCalled = true ∧
    (runCycle ["T"] (fun _ => .ok [mkEvent "T" [7] "e1"]) true false false
      []).uploadCalled = true ∧
    (runCycle ["T"] (fun _ => .ok [mkEvent "T" [7] "e1"]) true false false
      []).latest_per_topic = [("T", [7])] ∧
    (runCycle ["T"] (fun _ => .ok [mkEvent "T" [7] "e1"]) true false false
      []).setCalls = [] ∧
    (runCycle ["T"] (fun _ => .ok [mkEvent "T" [7] "e1"]) true false false
      []).raised = true := by
  decide

/-- C5 (amended): after a successful flush, the cursor sets run only when the
environment is local or the upload succeeds; a raising `upload_file` in a
non-local environment propagates out of `main` first, so no checkpoint is
written and the store is unchanged (events are redelivered, none lost). -/
theorem upload_failure_gates_checkpoints (topics : List String)
    (fetch : String → Except String (List Event)) (envLocal uploadOk : Bool)
    (store₀ : CursorMap) (hne : (collectPhase fetch topics).1 ≠ []) :
    (runCycle topics fetch true envLocal uploadOk store₀).setCalls =
      (if envLocal || uploadOk then (collectPhase fetch topics).2 else []) ∧
    ((envLocal || uploadOk) = false →
      (runCycle topics fetch true envLocal uploadOk store₀).store = store₀ ∧
      (runCycle topics fetch true envLocal uploadOk store₀).raised = true) := by
  have hemp : (collectPhase fetch topics).1.isEmpty = false := by
    cases hc : (collectPhase fetch topics).1 with
    | nil => exact absurd hc hne
    | cons _ _ => rfl
  cases envLocal with
  | false =>
      cases uploadOk with
      | false =>
          rw [runCycle_uploadFail topics fetch store₀ hemp]
          exact ⟨by simp, fun _ => ⟨rfl, rfl⟩⟩
      | true =>
          rw [runCycle_success topics fetch false true store₀ hemp (Or.inr rfl)]
          exact ⟨by simp, by simp⟩
  | true =>
      rw [runCycle_success topics fetch true uploadOk store₀ hemp (Or.inl rfl)]
      exact ⟨by simp, by simp⟩

/-- C5 amended-claim witness: concrete cycle in the local environment — the
sets run over the candidate checkpoints. -/
theorem upload_failure_gates_checkpoints_witness :
    (collectPhase (fun _ => .ok [mkEvent "T" [7] "e2"]) ["T"]).1 ≠ [] ∧
    (runCycle ["T"] (fun _ => .ok [mkEvent "T" [7] "e2"]) true true false
      []).setCalls =
      (if true || false then
        (collectPhase (fun _ => .ok [mkEvent "T" [7] "e2"]) ["T"]).2 else []) :=
  ⟨by decide,
   (upload_failure_gates_checkpoints ["T"] (fun _ => .ok [mkEvent "T" [7] "e2"])
      true false [] (by decide)).1⟩

/-- C8: a cycle over a topic with a stored checkpoint whose only response is
a keepalive (zero events) collects nothing, never calls the flush or the
upload, performs no `CursorStore.set`, and leaves the store — in particular
that topic's checkpoint — exactly as it was. -/
theorem keepalive_cycle_noop (t : String) (decode : Bytes → Option String)
    (responses : String → List FetchResponse) (resp : FetchResponse)
    (flushOk envLocal uploadOk : Bool) (store₀ : CursorMap) (p : Bytes)
    (hresp : responses t = [resp]) (hev : resp.events = [])
    (hcp : CursorStore.get store₀ t = some p) :
    (runPubsubCycle [t] decode responses flushOk envLocal uploadOk
      store₀).collected = [] ∧
    (runPubsubCycle [t] decode responses flushOk envLocal uploadOk
      store₀).flushCalled = false ∧
    (runPubsubCycle [t] decode responses flushOk envLocal uploadOk
      store₀).uploadCalled = false ∧
    (runPubsubCycle [t] decode responses flushOk envLocal uploadOk
      store₀).setCalls = [] ∧
    (runPubsubCycle [t] decode responses flushOk envLocal uploadOk
      store₀).store = store₀ ∧
    CursorStore.get (runPubsubCycle [t] decode responses flushOk envLocal
      uploadOk store₀).store t = some p := by
  have hfetch : fetch_events_via_pubsub decode responses 100 t = [] := by
    unfold fetch_events_via_pubsub subscribe_to_events
    rw [hresp]
    simp [hev]
  have hcollect : collectPhase (pubsubFetch decode responses) [t] = ([], []) := by
    unfold collectPhase collectStep pubsubFetch
    simp [hfetch, trackLatest]
  unfold runPubsubCycle
  rw [runCycle_emptyBatch [t] (pubsubFetch decode responses) flushOk envLocal
    uploadOk store₀ (by rw [hcollect]; rfl)]
  rw [hcollect]
  exact ⟨rfl, rfl, rfl, rfl, rfl, hcp⟩

/-- C8 witness: checkpoint `[3]` stored for "T", one keepalive response —
nothing changes. -/
theorem keepalive_cycle_noop_witness :
    (fun _ : String => [({ latest_replay_id := [3], events := [] } :
        FetchResponse)]) "T" =
      [{ latest_replay_id := [3], events := [] }] ∧
    CursorStore.get [("T", [3])] "T" = some [3] ∧
    (runPubsubCycle ["T"] decodeSample
      (fun _ => [{ latest_replay_id := [3], events := [] }])
      true false true [("T", [3])]).setCalls = [] ∧
    (runPubsubCycle ["T"] decodeSample
      (fun _ => [{ latest_replay_id := [3], events := [] }])
      true false true [("T", [3])]).store = [("T", [3])] := by
  have h := keepalive_cycle_noop "T" decodeSample
    (fun _ => [{ latest_replay_id := [3], events := [] }])
    { latest_replay_id := [3], events := [] } true false true
    [("T", [3])] [3] rfl rfl (by decide)
  exact ⟨rfl, by decide, h.2.2.2.1, h.2.2.2.2.1⟩

/-- C1 counterexample: the stream for topic "T" has envelopes at positions
1, 2, 3; the middle one fails to decode, is skipped and never persisted, yet
the later envelope decodes, so the checkpoint written at the end of the cycle
is position 3, which exceeds the skipped event's position 2 — the claim that
the checkpoint never exceeds a skipped event's position is false. -/
theorem checkpoint_past_skipped_decode_cex :
    decodeSample (mkEnvelope [2] "e2" [99]).payload = none ∧
    (∀ x ∈ (runPubsubCycle ["T"] decodeSample responsesSample true true true
      []).collected, x.event_id ≠ "e2") ∧
    (runPubsubCycle ["T"] decodeSample responsesSample true true true
      []).flushCalled = true ∧
    lookupA (runPubsubCycle ["T"] decodeSample responsesSample true true true
      []).setCalls "T" = some [3] ∧
    bytesToNat [2] < bytesToNat [3] := by
  decide

/-- C1 (amended): whenever a cycle writes a checkpoint `r` for a topic, `r`
is the replay id of the last event the Pub/Sub client successfully decoded
and yielded for that topic, that event is in the flushed batch, and the flush
ran; envelopes that fail to decode are skipped and not persisted, so the
checkpoint may exceed a skipped envelope's position (the skipped event is not
redelivered). -/
theorem checkpoint_is_last_collected_event (topics : List String)
    (decode : Bytes → Option String) (responses : String → List FetchResponse)
    (flushOk envLocal uploadOk : Bool) (store₀ : CursorMap) (t : String)
    (r : Bytes)
    (h : lookupA (runPubsubCycle topics decode responses flushOk envLocal
      uploadOk store₀).setCalls t = some r) :
    ∃ e : Event,
      (fetch_events_via_pubsub decode responses 100 t).getLast? = some e ∧
      e.replay_id = r ∧
      e ∈ (runPubsubCycle topics decode responses flushOk envLocal uploadOk
        store₀).collected ∧
      (runPubsubCycle topics decode responses flushOk envLocal uploadOk
        store₀).flushCalled = true := by
  have hlatest : ∀ hl : lookupA
      (collectPhase (pubsubFetch decode responses) topics).2 t = some r,
      ∃ e : Event,
        (fetch_events_via_pubsub decode responses 100 t).getLast? = some e ∧
        e.replay_id = r ∧
        e ∈ (collectPhase (pubsubFetch decode responses) topics).1 := by
    intro hl
    obtain ⟨hmem, hcp⟩ :=
      collect_latest_some (pubsubFetch decode responses) topics t r hl
    have hfeq : pubsubFetch decode responses t =
        .ok (fetch_events_via_pubsub decode responses 100 t) := rfl
    rw [topicCheckpoint_ok (pubsubFetch decode responses) t _ hfeq] at hcp
    cases hg : (fetch_events_via_pubsub decode responses 100 t).getLast? with
    | none => rw [hg] at hcp; simp at hcp
    | some e =>
        rw [hg] at hcp
        simp only [Option.map_some', Option.some_inj] at hcp
        refine ⟨e, rfl, hcp, ?_⟩
        exact collectFold_collected_of_mem (pubsubFetch decode responses) t _
          e topics hmem hfeq (getLast?_some_mem hg) ([], [])
  by_cases h1 : (collectPhase (pubsubFetch decode responses) topics).1.isEmpty
  · exfalso
    rw [runPubsubCycle, runCycle_emptyBatch topics (pubsubFetch decode
      responses) flushOk envLocal uploadOk store₀ h1] at h
    obtain ⟨e, _, _, hmem⟩ := hlatest h
    rw [List.isEmpty_iff] at h1
    rw [h1] at hmem
    cases hmem
  · have h1f : (collectPhase (pubsubFetch decode responses) topics).1.isEmpty
        = false := by
      cases hb : (collectPhase (pubsubFetch decode responses) topics).1.isEmpty
      · rfl
      · exact absurd hb h1
    cases flushOk with
    | false =>
        rw [runPubsubCycle, runCycle_flushFail topics (pubsubFetch decode
          responses) envLocal uploadOk store₀ h1f] at h
        simp [lookupA] at h
    | true =>
        by_cases hok : envLocal = true ∨ uploadOk = true
        · rw [runPubsubCycle, runCycle_success topics (pubsubFetch decode
            responses) envLocal uploadOk store₀ h1f hok] at h ⊢
          obtain ⟨e, hg, hr, hmem⟩ := hlatest h
          exact ⟨e, hg, hr, hmem, rfl⟩
        · have hl : envLocal = false := by
            cases envLocal
            · rfl
            · exact absurd (Or.inl rfl) hok
          have hu : uploadOk = false := by
            cases uploadOk
            · rfl
            · exact absurd (Or.inr rfl) hok
          subst hl; subst hu
          rw [runPubsubCycle, runCycle_uploadFail topics (pubsubFetch decode
            responses) store₀ h1f] at h
          simp [lookupA] at h

/-- C1 amended-claim witness: a concrete cycle writes checkpoint `[5]` for
"T", which is the last yielded event's replay id, and that event is in the
flushed batch. -/
theorem checkpoint_is_last_collected_event_witness :
    lookupA (runPubsubCycle ["T"] decodeSample
      (fun _ => [{ latest_replay_id := [5],
                   events := [mkEnvelope [5] "w1" [1]] }])
      true true true []).setCalls "T" = some [5] ∧
    ∃ e : Event,
      (fetch_events_via_pubsub decodeSample
        (fun _ => [{ latest_replay_id := [5],
                     events := [mkEnvelope [5] "w1" [1]] }]) 100
        "T").getLast? = some e ∧
      e.replay_id = [5] ∧
      e ∈ (runPubsubCycle ["T"] decodeSample
        (fun _ => [{ latest_replay_id := [5],
                     events := [mkEnvelope [5] "w1" [1]] }])
        true true true []).collected ∧
      (runPubsubCycle ["T"] decodeSample
        (fun _ => [{ latest_replay_id := [5],
                     events := [mkEnvelope [5] "w1" [1]] }])
        true true true []).flushCalled = true :=
  ⟨by decide,
   checkpoint_is_last_collected_event ["T"] decodeSample
    (fun _ => [{ latest_replay_id := [5],
                 events := [mkEnvelope [5] "w1" [1]] }])
    true true true [] "T" [5] (by decide)⟩

theorem resolveStep_hit (fetchSchema : String → Option String)
    (cache : List (String × String)) (log : List String) (sid sch : String)
    (h : lookupA cache sid = some sch) :
    resolveStep fetchSchema (cache, log) sid = (cache, log) := by
  unfold resolveStep
  rw [h]

theorem resolveStep_missOk (fetchSchema : String → Option String)
    (cache : List (String × String)) (log : List String) (sid sch : String)
    (h1 : lookupA cache sid = none) (h2 : fetchSchema sid = some sch) :
    resolveStep fetchSchema (cache, log) sid =
      ((sid, sch) :: cache, log ++ [sid]) := by
  unfold resolveStep
  rw [h1, h2]

theorem resolveStep_missFail (fetchSchema : String → Option String)
    (cache : List (String × String)) (log : List String) (sid : String)
    (h1 : lookupA cache sid = none) (h2 : fetchSchema sid = none) :
    resolveStep fetchSchema (cache, log) sid = (cache, log ++ [sid]) := by
  unfold resolveStep
  rw [h1, h2]

theorem schemaCache_fold_invariant (fetchSchema : String → Option String)
    (s : String) (hs : (fetchSchema s).isSome = true) :
    ∀ (sids : List String) (cache : List (String × String))
      (log : List String),
      log.count s ≤ 1 → (log.count s = 1 → (lookupA cache s).isSome = true) →
      ((sids.foldl (resolveStep fetchSchema) (cache, log)).2.count s ≤ 1 ∧
       ((sids.foldl (resolveStep fetchSchema) (cache, log)).2.count s = 1 →
         (lookupA (sids.foldl (resolveStep fetchSchema) (cache, log)).1
           s).isSome = true)) := by
  intro sids
  induction sids with
  | nil => intro cache log h1 h2; exact ⟨h1, h2⟩
  | cons sid rest ih =>
      intro cache log h1 h2
      rw [List.foldl_cons]
      cases hc : lookupA cache sid with
      | some sch =>
          rw [resolveStep_hit fetchSchema cache log sid sch hc]
          exact ih cache log h1 h2
      | none =>
          by_cases hss : sid = s
          · subst hss
            have h0 : log.count sid = 0 := by
              by_contra hne0
              have hone : log.count sid = 1 :=
                Nat.le_antisymm h1 (Nat.one_le_iff_ne_zero.2 hne0)
              have := h2 hone
              rw [hc] at this
              simp at this
            cases hf : fetchSchema sid with
            | none => rw [hf] at hs; simp at hs
            | some sch =>
                rw [resolveStep_missOk fetchSchema cache log sid sch hc hf]
                apply ih
                · rw [List.count_append, h0]
                  simp
                · intro _
                  simp [lookupA]
          · have hss2 : ¬ s = sid := fun hh => hss hh.symm
            have hcount : (log ++ [sid]).count s = log.count s := by
              rw [List.count_append]
              simp [List.count_cons, hss, hss2]
            cases hf : fetchSchema sid with
            | some sch =>
                rw [resolveStep_missOk fetchSchema cache log sid sch hc hf]
                apply ih
                · rw [hcount]; exact h1
                · intro hcnt
                  rw [hcount] at hcnt
                  have := h2 hcnt
                  simpa [lookupA, hss] using this
            | none =>
                rw [resolveStep_missFail fetchSchema cache log sid hc hf]
                apply ih
                · rw [hcount]; exact h1
                · intro hcnt
                  rw [hcount] at hcnt
                  exact h2 hcnt

/-- C6 counterexample: in a batch-mode run over two topics that share the
schema id "S", the REST schema fetch runs once per topic — twice for "S" —
so the claim that a run fetches each distinct schema id at most once is
false. -/
theorem schema_fetch_per_topic_cex :
    (batchRunSchemaFetches (fun _ => "S")
      ["/event/A__e", "/event/B__e"]).count "S" = 2 ∧
    ¬ ((batchRunSchemaFetches (fun _ => "S")
      ["/event/A__e", "/event/B__e"]).count "S" ≤ 1) := by
  decide

/-- C6 (amended): in continuous mode the per-run cache fetches a schema id
whose fetch succeeds at most once, however many envelopes reference it; in
batch mode the schema fetch runs once per topic subscription, so a schema id
shared by several topics is fetched once per topic, not once per run. -/
theorem schema_cache_reuse (fetchSchema : String → Option String)
    (schema_ids : List String) (s : String) (topicSchema : String → String)
    (topics : List String) (hs : (fetchSchema s).isSome = true) :
    (schemaFetchLog fetchSchema schema_ids).count s ≤ 1 ∧
    (batchRunSchemaFetches topicSchema topics).count s =
      topics.countP (fun t => topicSchema t == s) := by
  constructor
  · exact (schemaCache_fold_invariant fetchSchema s hs schema_ids [] []
      (by simp) (by simp)).1
  · induction topics with
    | nil => rfl
    | cons t rest ih =>
        simp only [batchRunSchemaFetches, List.map_cons, List.count_cons,
          List.countP_cons] at ih ⊢
        rw [ih]

/-- C6 amended-claim witness: with an always-successful fetch, three
envelopes referencing "S" twice cause at most one fetch of "S"; two topics
sharing "S" in batch mode fetch it once per topic. -/
theorem schema_cache_reuse_witness :
    ((fun _ : String => some "sch") "S").isSome = true ∧
    (schemaFetchLog (fun _ => some "sch") ["S", "S", "T"]).count "S" ≤ 1 ∧
    (batchRunSchemaFetches (fun _ => "S")
      ["/event/A__e", "/event/B__e"]).count "S" =
      ["/event/A__e", "/event/B__e"].countP
        (fun t => (fun _ : String => "S") t == "S") :=
  ⟨rfl,
   (schema_cache_reuse (fun _ => some "sch") ["S", "S", "T"] "S"
     (fun _ => "S") ["/event/A__e", "/event/B__e"] rfl).1,
   (schema_cache_reuse (fun _ => some "sch") ["S", "S", "T"] "S"
     (fun _ => "S") ["/event/A__e", "/event/B__e"] rfl).2⟩

end SalesforceClient
